import Mathlib

/-!
Verification development for the smart-splitter core: boundary detection
(`boundary_detection/detector.py`), the segmenter (`get_document_sections`),
rule-based document classification (`classification/classifier.py`,
`classification/data_models.py`) and the feedback learning store
(`classification/feedback.py`).

Modelling conventions, shared by every definition below:
  * Python `float` is embedded as `ℚ`; every constant the source writes as a
    decimal literal (0.6, 0.2, 0.7, ...) is the corresponding rational.
  * Python `dict` (always used with insertion-order iteration in the source)
    is embedded as an association list `List (key × value)`; updating an
    existing key keeps its position, inserting a fresh key appends at the end,
    exactly as Python dict insertion order behaves.
  * `re.search` / pattern matching is an external library call; it is passed
    in as an abstract total function `matcher : String → String → Bool`
    (pattern, text ↦ matched?).  A pattern whose compilation fails is skipped
    by the source (`except re.error: continue`); such a pattern corresponds to
    a `matcher` that answers `false` for it, so the abstraction is faithful.
  * Side effects that do not influence the values under study (logging, the
    JSON file write in `_save_feedback`, timestamps from `datetime.now()`) are
    dropped or taken as explicit arguments (`timestamp`).
-/

set_option maxRecDepth 8000

namespace SmartSplitter

/-! ## String primitives

Python string operations are re-implemented structurally over the character
list of the string (Lean's core `String.trim`, `String.take`, `String.split`,
`String.toUpper` are well-founded recursions the kernel cannot evaluate, which
the concrete scenario proofs below need).  Python indexes strings by code
point, as `List Char` does. -/

/-- Python `str.upper()` (the inputs under study are ASCII). -/
def upper (s : String) : String := String.mk (s.data.map Char.toUpper)

/-- Python `str.lower()` (the inputs under study are ASCII). -/
def lower (s : String) : String := String.mk (s.data.map Char.toLower)

/-- Python slice `s[:n]`. -/
def takeChars (n : Nat) (s : String) : String := String.mk (s.data.take n)

/-- Python `not s or not s.strip()`: the string has no non-whitespace
character. -/
def is_blank (s : String) : Bool := s.data.all Char.isWhitespace

/-- The maximal runs of characters satisfying `p`, in order. -/
def tokenizeAux (p : Char → Bool) : List Char → List Char → List String
  | [], cur => if cur.isEmpty then [] else [String.mk cur.reverse]
  | c :: rest, cur =>
    if p c then tokenizeAux p rest (c :: cur)
    else if cur.isEmpty then tokenizeAux p rest []
    else String.mk cur.reverse :: tokenizeAux p rest []

/-- The maximal runs of characters of `s` satisfying `p`. -/
def tokensWhere (p : Char → Bool) (s : String) : List String :=
  tokenizeAux p s.data []

/-! ## Association-list helpers (Python dict with insertion order) -/

/-- Lookup in an insertion-ordered association list (Python `dict.get`). -/
def alistGet {κ ν : Type} [DecidableEq κ] : List (κ × ν) → κ → Option ν
  | [], _ => none
  | (k2, v) :: rest, k => if k = k2 then some v else alistGet rest k

/-- Update the value at `k` through `f`, starting from `d` when `k` is absent
(Python `defaultdict` access followed by mutation: an existing key keeps its
position, a fresh key is appended at the end). -/
def alistUpd {κ ν : Type} [DecidableEq κ] : List (κ × ν) → κ → ν → (ν → ν) → List (κ × ν)
  | [], k, d, f => [(k, f d)]
  | (k2, v) :: rest, k, d, f =>
    if k = k2 then (k2, f v) :: rest else (k2, v) :: alistUpd rest k d f

/-- The last `n` elements of a list (Python slice `xs[-n:]` for `n > 0`). -/
def lastN {α : Type} (n : Nat) (xs : List α) : List α :=
  xs.drop (xs.length - n)

/-! ## Feedback store data model (`classification/feedback.py`) -/

/-- Single correction entry for tracking user feedback
(`CorrectionEntry` in `feedback.py`). -/
structure CorrectionEntry where
  timestamp : String
  original_type : String
  corrected_type : String
  confidence : ℚ
  text_sample : String
deriving DecidableEq, Repr

/-- Statistics for a specific document type (`CorrectionStats` in
`feedback.py`; `correction_targets` is a dict from target type to count). -/
structure CorrectionStats where
  total_classifications : Nat := 0
  total_corrections : Nat := 0
  correction_targets : List (String × Nat) := []
deriving DecidableEq, Repr

/-- `CorrectionStats.correction_rate`: corrections / classifications,
0.0 when no classifications. -/
def CorrectionStats.correction_rate (s : CorrectionStats) : ℚ :=
  if s.total_classifications = 0 then 0
  else (s.total_corrections : ℚ) / (s.total_classifications : ℚ)

/-- `CorrectionStats.accuracy_rate`. -/
def CorrectionStats.accuracy_rate (s : CorrectionStats) : ℚ :=
  1 - s.correction_rate

/-- The in-memory state of `FeedbackLearningSystem`: the corrections log and
the per-type stats dict (`self.corrections`, `self.stats`). -/
structure FeedbackState where
  corrections : List CorrectionEntry := []
  stats : List (String × CorrectionStats) := []
deriving DecidableEq, Repr

/-- `FeedbackLearningSystem.record_classification`: increments the type's
classification count (via `defaultdict` access). -/
def record_classification (st : FeedbackState) (document_type : String) : FeedbackState :=
  { st with
    stats := alistUpd st.stats document_type {}
      (fun s => { s with total_classifications := s.total_classifications + 1 }) }

/-- `FeedbackLearningSystem.record_correction`: appends a `CorrectionEntry`
(sample truncated to its first 200 characters), increments the original
type's correction count and its target count for the corrected type. -/
def record_correction (st : FeedbackState) (timestamp original_type corrected_type : String)
    (confidence : ℚ) (text_sample : String) : FeedbackState :=
  let entry : CorrectionEntry :=
    { timestamp := timestamp, original_type := original_type,
      corrected_type := corrected_type, confidence := confidence,
      text_sample := takeChars 200 text_sample }
  { st with
    corrections := st.corrections ++ [entry],
    stats := alistUpd st.stats original_type {}
      (fun s => { s with
        total_corrections := s.total_corrections + 1,
        correction_targets := alistUpd s.correction_targets corrected_type 0 (· + 1) }) }

/-- `FeedbackLearningSystem.get_confidence_adjustment`: 1.0 with fewer than 5
recorded classifications, otherwise `max 0.5 (1 - correction_rate * 0.5)`. -/
def get_confidence_adjustment (st : FeedbackState) (document_type : String) : ℚ :=
  match alistGet st.stats document_type with
  | none => 1
  | some stats =>
    if stats.total_classifications < 5 then 1
    else max (1/2 : ℚ) (1 - stats.correction_rate * (1/2))

/-- The corrections list `_save_feedback` persists: only the most recent 1000
entries (`self.corrections[-1000:]`). -/
def save_feedback_corrections (st : FeedbackState) : List CorrectionEntry :=
  lastN 1000 st.corrections

/-! ## Pattern suggestion (`suggest_pattern_improvements`) -/

/-- A word character in the sense of the regex `\w` (the inputs under study
are ASCII): letters, digits and the underscore. -/
def is_word_char (c : Char) : Bool :=
  c.isAlphanum || c = '_'

/-- `re.findall(r"\b\w+\b", s)`: the maximal runs of word characters of `s`. -/
def findWords (s : String) : List String :=
  tokensWhere is_word_char s

/-- Stable insertion of a counted word into a list sorted by descending count:
placed before the first entry whose count is not larger, as Python's stable
`sorted(..., reverse=True)` (and `Counter.most_common`) orders ties by first
insertion. -/
def insertByCountDesc (x : String × Nat) : List (String × Nat) → List (String × Nat)
  | [] => [x]
  | y :: ys => if y.2 ≤ x.2 then x :: y :: ys else y :: insertByCountDesc x ys

/-- Stable sort by descending count (`Counter.most_common` ordering). -/
def sortByCountDesc (l : List (String × Nat)) : List (String × Nat) :=
  l.foldr insertByCountDesc []

/-- `FeedbackLearningSystem._find_common_patterns`: upper-case the samples,
extract `\w+` tokens, count them (first-occurrence insertion order), take the
20 most common, and keep — in that ranking order — the words occurring at
least `0.5 * len(samples)` times whose length exceeds 3. -/
def find_common_patterns (text_samples : List String) : List String :=
  let all_words := text_samples.foldl (fun acc s => acc ++ findWords (upper s)) []
  let word_counts := all_words.foldl (fun m w => alistUpd m w 0 (· + 1)) []
  let most_common := (sortByCountDesc word_counts).take 20
  let total_samples := text_samples.length
  (most_common.filter
    (fun wc => decide ((total_samples : ℚ) * (1/2) ≤ (wc.2 : ℚ)) && decide (3 < wc.1.length))).map
    (fun wc => wc.1)

/-- One step of the grouping loop of `suggest_pattern_improvements`: file the
sample under the `(original_type, corrected_type)` key (a `defaultdict(list)`). -/
def group_step (m : List ((String × String) × List String)) (c : CorrectionEntry) :
    List ((String × String) × List String) :=
  alistUpd m (c.original_type, c.corrected_type) [] (fun l => l ++ [c.text_sample])

/-- The grouping pass of `suggest_pattern_improvements`: correction samples
keyed by `(original_type, corrected_type)`. -/
def correction_groups (st : FeedbackState) : List ((String × String) × List String) :=
  st.corrections.foldl group_step []

/-- The per-group loop of `suggest_pattern_improvements`.  `feedback.py` never
imports `re` at module scope (`import re` appears only inside
`_find_common_patterns`), so the moment a group with at least
`min_corrections` samples yields a non-empty common-word list, the line
`pattern = rf"\b\x7bre.escape(word)\x7d\b"` raises `NameError`; the loop is
therefore modelled in `Except`, failing at that point. -/
def suggest_loop (min_corrections : Nat) :
    List ((String × String) × List String) → List (String × List String) →
    Except String (List (String × List String))
  | [], suggestions => Except.ok suggestions
  | (_, samples) :: rest, suggestions =>
    if min_corrections ≤ samples.length then
      if (find_common_patterns samples).isEmpty then
        suggest_loop min_corrections rest suggestions
      else
        Except.error "NameError: name re is not defined"
    else
      suggest_loop min_corrections rest suggestions

/-- `FeedbackLearningSystem.suggest_pattern_improvements` as the source
executes: group the in-memory corrections log, then run the (faulty)
suggestion loop. -/
def suggest_pattern_improvements (st : FeedbackState) (min_corrections : Nat) :
    Except String (List (String × List String)) :=
  suggest_loop min_corrections (correction_groups st) []

/-- `re.escape` restricted to the inputs that occur here (tokens made of word
characters): word characters are kept, anything else gets a backslash. -/
def re_escape (w : String) : String :=
  String.mk (w.data.foldr (fun c acc => if is_word_char c then c :: acc else '\\' :: c :: acc) [])

/-- Modelled from the spec: the per-group suggestion loop of
`suggest_pattern_improvements` as §4.3 documents it — for every group with at
least `min_corrections` samples, propose the top 3 common words as
word-boundary-anchored patterns for the corrected type.  This is what the
source would compute if `re` were in scope in `feedback.py`; the source
itself raises `NameError` instead (see `suggest_loop`). -/
def suggest_loop_intended (min_corrections : Nat) :
    List ((String × String) × List String) → List (String × List String) →
    List (String × List String)
  | [], suggestions => suggestions
  | ((_, correct_type), samples) :: rest, suggestions =>
    if min_corrections ≤ samples.length then
      let common := find_common_patterns samples
      if common.isEmpty then
        suggest_loop_intended min_corrections rest suggestions
      else
        suggest_loop_intended min_corrections rest
          ((common.take 3).foldl
            (fun sg w => alistUpd sg correct_type [] (fun l => l ++ ["\\b" ++ re_escape w ++ "\\b"]))
            suggestions)
    else
      suggest_loop_intended min_corrections rest suggestions

/-- Modelled from the spec: `suggest_pattern_improvements` with the pattern
construction actually reachable (what §4.3 and the docstring describe). -/
def suggest_pattern_improvements_intended (st : FeedbackState) (min_corrections : Nat) :
    List (String × List String) :=
  suggest_loop_intended min_corrections (correction_groups st) []

/-- Feedback-store states reachable from the empty state through the two
mutating operations of the store. -/
inductive Reachable : FeedbackState → Prop
  | empty : Reachable {}
  | classify (st : FeedbackState) (t : String) :
      Reachable st → Reachable (record_classification st t)
  | correct (st : FeedbackState) (ts o c : String) (conf : ℚ) (sample : String) :
      Reachable st → Reachable (record_correction st ts o c conf sample)

/-! ## Classification data models (`classification/data_models.py`) -/

/-- The closed set of document-type labels (`DocumentType` enum). -/
inductive DocumentType where
  | email | letter | payment_application | evidence_of_payment
  | change_order | change_order_response | rfi | rfi_response
  | inspection_report | contract_document | plans_specifications | other
deriving DecidableEq, Repr

/-- The string value of each enum member. -/
def DocumentType.value : DocumentType → String
  | .email => "email"
  | .letter => "letter"
  | .payment_application => "payment_application"
  | .evidence_of_payment => "evidence_of_payment"
  | .change_order => "change_order"
  | .change_order_response => "change_order_response"
  | .rfi => "rfi"
  | .rfi_response => "rfi_response"
  | .inspection_report => "inspection_report"
  | .contract_document => "contract_document"
  | .plans_specifications => "plans_specifications"
  | .other => "other"

/-- The enum members in declaration order (Python `for dt in DocumentType`). -/
def DocumentType.all : List DocumentType :=
  [.email, .letter, .payment_application, .evidence_of_payment,
   .change_order, .change_order_response, .rfi, .rfi_response,
   .inspection_report, .contract_document, .plans_specifications, .other]

/-- `[dt.value for dt in DocumentType]`. -/
def valid_types : List String := DocumentType.all.map DocumentType.value

/-- The closed set of classification methods (`ClassificationMethod` enum). -/
inductive ClassificationMethod where
  | rule_based | api | fallback
deriving DecidableEq, Repr

/-- The string value of each method. -/
def ClassificationMethod.value : ClassificationMethod → String
  | .rule_based => "rule_based"
  | .api => "api"
  | .fallback => "fallback"

/-- `[cm.value for cm in ClassificationMethod]`. -/
def valid_methods : List String :=
  [ClassificationMethod.rule_based.value, ClassificationMethod.api.value,
   ClassificationMethod.fallback.value]

/-- The values the source stores in the `extracted_info` dict: strings,
pattern lists and counts (the Python type hint says `Dict[str, str]` but the
source stores lists and ints in it without any runtime check). -/
inductive InfoVal where
  | str : String → InfoVal
  | strList : List String → InfoVal
  | num : Nat → InfoVal
deriving DecidableEq, Repr

/-- `ClassificationResult` dataclass.  The fields are plain (a Python
dataclass object holds whatever was assigned); the `__post_init__`
validation is `ClassificationResult.post_init` below, and — exactly as in
Python — later direct field mutation bypasses it. -/
structure ClassificationResult where
  document_type : String
  confidence : ℚ
  method_used : String
  extracted_info : List (String × InfoVal) := []
  raw_response : Option String := none
deriving DecidableEq, Repr

/-- `ClassificationResult.__post_init__`: fail unless confidence lies in
[0, 1] and the label and method are members of their closed sets; on success
the result is returned exactly as constructed (no clamping). -/
def ClassificationResult.post_init (r : ClassificationResult) :
    Except String ClassificationResult :=
  if ¬ (0 ≤ r.confidence ∧ r.confidence ≤ 1) then
    Except.error "Confidence must be between 0 and 1"
  else if r.document_type ∉ valid_types then
    Except.error ("Invalid document type: " ++ r.document_type)
  else if r.method_used ∉ valid_methods then
    Except.error ("Invalid classification method: " ++ r.method_used)
  else
    Except.ok r

/-- `ClassificationConfig` (the fields the classification logic reads). -/
structure ClassificationConfig where
  max_input_chars : Nat := 1000
  confidence_threshold : ℚ := 7/10
  rule_patterns : List (String × List String)

/-- `ClassificationConfig._get_default_patterns`, in source order. -/
def default_rule_patterns : List (String × List String) :=
  [("email",
    ["From:\\s*.+@.+",
     "To:\\s*.+@.+",
     "Subject:\\s*.+",
     "Sent:\\s*\\w+.*\\d{4}",
     "Message-ID:"]),
   ("payment_application",
    ["APPLICATION FOR PAYMENT",
     "SCHEDULE OF VALUES",
     "(?:AIA|FORM)\\s*G702",
     "PAYMENT APPLICATION\\s*(?:NO|#)\\.?\\s*\\d+",
     "APPLICATION AND CERTIFICATE FOR PAYMENT"]),
   ("change_order",
    ["CHANGE ORDER",
     "MODIFICATION TO CONTRACT",
     "(?:AIA|FORM)\\s*G701",
     "CHANGE ORDER\\s*(?:NO|#)\\.?\\s*\\d+",
     "CONSTRUCTION CHANGE DIRECTIVE"]),
   ("rfi",
    ["REQUEST FOR INFORMATION",
     "RFI\\s*(?:NO|#)\\.?\\s*\\d+",
     "INFORMATION REQUEST",
     "CLARIFICATION REQUEST"]),
   ("rfi_response",
    ["RFI.*RESPONSE",
     "RESPONSE TO.*RFI",
     "INFORMATION REQUEST.*RESPONSE"]),
   ("contract_document",
    ["CONTRACT AGREEMENT",
     "SUBCONTRACT",
     "GENERAL CONDITIONS",
     "SPECIAL CONDITIONS",
     "CONSTRUCTION CONTRACT"]),
   ("inspection_report",
    ["INSPECTION REPORT",
     "SITE VISIT REPORT",
     "FIELD REPORT",
     "PROGRESS INSPECTION"]),
   ("evidence_of_payment",
    ["CHECK\\s*(?:NO|#)\\.?\\s*\\d+",
     "PAYMENT RECEIPT",
     "PROOF OF PAYMENT",
     "BANK STATEMENT",
     "WIRE TRANSFER"]),
   ("change_order_response",
    ["CHANGE ORDER.*RESPONSE",
     "RESPONSE TO.*CHANGE ORDER",
     "CO.*ACCEPTANCE",
     "CO.*REJECTION"]),
   ("plans_specifications",
    ["DRAWING\\s*(?:NO|#)",
     "SPECIFICATION",
     "ARCHITECTURAL PLANS",
     "TECHNICAL SPECIFICATIONS",
     "BLUEPRINT"])]

/-- The default `ClassificationConfig` (as built by `ClassificationConfig()`
with no explicit patterns). -/
def default_config : ClassificationConfig :=
  { rule_patterns := default_rule_patterns }

/-! ## The classifier (`classification/classifier.py`) -/

/-- The list of patterns of one type that match the upper-cased text
(the inner loop of `_classify_by_rules`). -/
def rule_matches (matcher : String → String → Bool) (text_upper : String)
    (dtp : String × List String) : List String :=
  dtp.2.filter (fun p => matcher p text_upper)

/-- The feedback adjustment `_classify_by_rules` applies: taken from the
feedback system when one is attached, otherwise no adjustment. -/
def feedback_adjustment (fb : Option FeedbackState) (document_type : String) : ℚ :=
  match fb with
  | some f => get_confidence_adjustment f document_type
  | none => 1

/-- The confidence `_classify_by_rules` computes for one document type:
0 with no matching pattern, otherwise
`min (0.6 + (matches - 1) * 0.2) 1.0` times the feedback adjustment. -/
def rule_score (matcher : String → String → Bool) (fb : Option FeedbackState)
    (text_upper : String) (dtp : String × List String) : ℚ :=
  let ms := rule_matches matcher text_upper dtp
  if ms.isEmpty then 0
  else min ((6/10 : ℚ) + ((ms.length : ℚ) - 1) * (2/10)) 1 * feedback_adjustment fb dtp.1

/-- The best-match fold of `_classify_by_rules`: strictly larger confidence
replaces the running best, so the first type reaching the final confidence
wins ties. -/
def rule_best_fold (matcher : String → String → Bool) (fb : Option FeedbackState)
    (text_upper : String) (patterns : List (String × List String))
    (init : ℚ × String × List String) : ℚ × String × List String :=
  patterns.foldl
    (fun best dtp =>
      if best.1 < rule_score matcher fb text_upper dtp then
        (rule_score matcher fb text_upper dtp, dtp.1, rule_matches matcher text_upper dtp)
      else best)
    init

/-- `DocumentClassifier._classify_by_rules`. -/
def classify_by_rules (matcher : String → String → Bool) (fb : Option FeedbackState)
    (cfg : ClassificationConfig) (text : String) : ClassificationResult :=
  let best := rule_best_fold matcher fb (upper text) cfg.rule_patterns
    ((0 : ℚ), DocumentType.other.value, ([] : List String))
  { document_type := best.2.1,
    confidence := best.1,
    method_used := ClassificationMethod.rule_based.value,
    extracted_info :=
      if best.2.2.isEmpty then []
      else [("matched_patterns", InfoVal.strList best.2.2),
            ("pattern_count", InfoVal.num best.2.2.length)] }

/-- The truncation step of `classify_document`
(`text_sample[:max_input_chars]` when the sample is too long). -/
def truncated_input (cfg : ClassificationConfig) (text_sample : String) : String :=
  if cfg.max_input_chars < text_sample.length
  then takeChars cfg.max_input_chars text_sample else text_sample

/-- `DocumentClassifier.classify_document`.  The optional external (OpenAI)
call is summarised by `api_outcome`: `some r` when a client is configured and
`_classify_by_api` returns `r`, `none` when there is no client or the call
raises (both fall through identically in the source).  The returned pair is
(result, feedback state after the call) — the source mutates
`self.feedback_system` in place. -/
def classify_document (matcher : String → String → Bool)
    (api_outcome : Option ClassificationResult) (cfg : ClassificationConfig)
    (fb : Option FeedbackState) (text_sample : String) :
    ClassificationResult × Option FeedbackState :=
  if is_blank text_sample then
    ({ document_type := DocumentType.other.value,
       confidence := 0,
       method_used := ClassificationMethod.fallback.value,
       extracted_info := [("error", InfoVal.str "Empty text sample")] }, fb)
  else
    let text := truncated_input cfg text_sample
    let rule_result := classify_by_rules matcher fb cfg text
    if cfg.confidence_threshold ≤ rule_result.confidence then
      (rule_result, fb.map (fun f => record_classification f rule_result.document_type))
    else
      match api_outcome with
      | some api_result =>
        let combined_confidence :=
          rule_result.confidence * (3/10) + api_result.confidence * (7/10)
        if rule_result.confidence < api_result.confidence then
          ({ api_result with confidence := combined_confidence }, fb)
        else
          ({ rule_result with confidence := combined_confidence }, fb)
      | none =>
        if (3/10 : ℚ) < rule_result.confidence then (rule_result, fb)
        else
          ({ document_type := DocumentType.other.value,
             confidence := 1/10,
             method_used := ClassificationMethod.fallback.value,
             extracted_info := [("reason", InfoVal.str "No patterns matched")] }, fb)

/-! ## Page data (`pdf_processing/data_models.py`) -/

/-- A text block with position and formatting info (`TextBlock`). -/
structure TextBlock where
  text : String := ""
  x : ℚ := 0
  y : ℚ := 0
  width : ℚ := 0
  height : ℚ := 0
  font_size : ℚ := 0
  font_name : String := ""
deriving Repr, Inhabited

/-- Layout information for a page (`LayoutInfo`). -/
structure LayoutInfo where
  has_header : Bool := false
  has_footer : Bool := false
  font_sizes : List ℚ := []
  text_blocks : List TextBlock := []
  page_width : ℚ := 0
  page_height : ℚ := 0
deriving Repr, Inhabited

/-- Data extracted from a PDF page (`PageData`; the optional PIL preview
image is external rendering state and carries no information the detector
reads, so it is not modelled). -/
structure PageData where
  page_num : Nat := 0
  text : String := ""
  has_large_text : Bool := false
  first_lines : List String := []
  layout_info : LayoutInfo := {}
deriving Repr, Inhabited

/-! ## Boundary detection (`boundary_detection/detector.py`) -/

/-- `BoundaryConfig`. -/
structure BoundaryConfig where
  patterns : List (String × List String) := []
  min_document_length : Nat := 1
  confidence_threshold : ℚ := 7/10
  large_font_weight : ℚ := 2
  header_change_weight : ℚ := 3/2

/-- `BoundaryDetector._check_boundary_patterns`: 3.0 when any pattern of any
type matches the upper-cased page text, else 0.0 (the source takes the
maximum of the per-match score 3.0 over all types). -/
def check_boundary_patterns (matcher : String → String → Bool) (cfg : BoundaryConfig)
    (text : String) : ℚ :=
  if cfg.patterns.any (fun dtp => dtp.2.any (fun p => matcher p (upper text))) then 3 else 0

/-- Average of a list of rationals with a default for the empty list
(`sum(xs) / len(xs) if xs else d`). -/
def avgOr (d : ℚ) (xs : List ℚ) : ℚ :=
  if xs.isEmpty then d else xs.sum / (xs.length : ℚ)

/-- `BoundaryDetector._has_layout_shift`: the average y position of the text
blocks moved by more than 30 percent of the page height. -/
def has_layout_shift (prev_page curr_page : PageData) : Bool :=
  if prev_page.layout_info.text_blocks.isEmpty || curr_page.layout_info.text_blocks.isEmpty then
    false
  else
    let prev_avg_y := avgOr 0 (prev_page.layout_info.text_blocks.map (fun b => b.y))
    let curr_avg_y := avgOr 0 (curr_page.layout_info.text_blocks.map (fun b => b.y))
    let page_height := curr_page.layout_info.page_height
    let shift_ratio := if 0 < page_height then |curr_avg_y - prev_avg_y| / page_height else 0
    decide ((3/10 : ℚ) < shift_ratio)

/-- `BoundaryDetector._check_layout_changes`: 1.0 for an average font size
change above 20 percent plus 1.0 for a vertical layout shift. -/
def check_layout_changes (prev_page curr_page : PageData) : ℚ :=
  let prev_avg_font := avgOr 12 prev_page.layout_info.font_sizes
  let curr_avg_font := avgOr 12 curr_page.layout_info.font_sizes
  let font_change_ratio :=
    if 0 < prev_avg_font then |curr_avg_font - prev_avg_font| / prev_avg_font else 0
  (if (1/5 : ℚ) < font_change_ratio then 1 else 0) +
    (if has_layout_shift prev_page curr_page then 1 else 0)

/-- Python `str.split()`: split on whitespace runs, dropping empty pieces. -/
def splitWs (s : String) : List String :=
  tokensWhere (fun c => !c.isWhitespace) s

/-- First occurrences of a list of strings (a Python `set` enumerated without
multiplicity; only its size and membership are used below). -/
def dedupStr : List String → List String
  | [] => []
  | s :: rest => if s ∈ rest then dedupStr rest else s :: dedupStr rest

/-- `BoundaryDetector._headers_similar`: bag-of-words overlap of the joined,
lower-cased headers above 30 percent (intersection size over the larger set
size). -/
def headers_similar (header1 header2 : List String) : Bool :=
  if header1.isEmpty || header2.isEmpty then false
  else
    let words1 := dedupStr (splitWs (lower (String.intercalate " " header1)))
    let words2 := dedupStr (splitWs (lower (String.intercalate " " header2)))
    if words1.isEmpty || words2.isEmpty then false
    else
      let common_words := words1.filter (fun w => w ∈ words2)
      decide ((3/10 : ℚ) <
        (common_words.length : ℚ) / (max words1.length words2.length : ℚ))

/-- `BoundaryDetector._check_header_changes`: weight when none of the up to
three preceding headers is similar to the current (non-empty) header; pages
with index below 2 score 0. -/
def check_header_changes (cfg : BoundaryConfig) (pages_data : List PageData)
    (page_index : Nat) : ℚ :=
  if page_index < 2 then 0
  else
    let current_header := (pages_data.getD page_index default).first_lines.take 3
    let similar_headers :=
      ((List.range page_index).drop (page_index - 3)).countP
        (fun i => headers_similar current_header ((pages_data.getD i default).first_lines.take 3))
    if similar_headers = 0 ∧ 0 < current_header.length then cfg.header_change_weight else 0

/-- `BoundaryDetector._is_boundary_page`: the four signal scores summed and
compared with the threshold. -/
def is_boundary_page (matcher : String → String → Bool) (cfg : BoundaryConfig)
    (pages_data : List PageData) (page_index : Nat) : Bool :=
  let current_page := pages_data.getD page_index default
  let confidence :=
    check_boundary_patterns matcher cfg current_page.text
    + (if 0 < page_index then
        check_layout_changes (pages_data.getD (page_index - 1) default) current_page
       else 0)
    + (if current_page.has_large_text then cfg.large_font_weight else 0)
    + check_header_changes cfg pages_data page_index
  decide (cfg.confidence_threshold ≤ confidence)

/-- Insert into a strictly ascending list, dropping duplicates; folding this
over a list yields `sorted(set(xs))`. -/
def insertAsc (x : Nat) : List Nat → List Nat
  | [] => [x]
  | y :: ys => if x < y then x :: y :: ys else if x = y then y :: ys else y :: insertAsc x ys

/-- Python `sorted(set(xs))`: the strictly ascending enumeration of the
elements of `xs`. -/
def sortedDedup (xs : List Nat) : List Nat :=
  xs.foldr insertAsc []

/-- The acceptance loop of `validate_boundaries`: walk the sorted candidates,
skip those at or past `total_pages`, accept those at least
`min_document_length` after the previously accepted boundary. -/
def validateLoop (min_len total_pages : Nat) : List Nat → Nat → List Nat
  | [], _ => []
  | b :: bs, prev =>
    if total_pages ≤ b then validateLoop min_len total_pages bs prev
    else if prev + min_len ≤ b then b :: validateLoop min_len total_pages bs b
    else validateLoop min_len total_pages bs prev

/-- `BoundaryDetector.validate_boundaries`: always keep page 0, then accept
the deduplicated, sorted tail subject to the bounds and minimum-length
checks (`boundary - prev_boundary >= min_document_length` on Python ints is
`prev + min_len ≤ boundary` here, the candidates being naturals). -/
def validate_boundaries (min_len : Nat) (boundaries : List Nat) (total_pages : Nat) :
    List Nat :=
  match boundaries with
  | [] => [0]
  | _ :: rest => 0 :: validateLoop min_len total_pages (sortedDedup rest) 0

/-- `BoundaryDetector.detect_boundaries`: empty input gives no boundaries;
otherwise page 0 plus every later page `_is_boundary_page` accepts, passed
through `validate_boundaries`. -/
def detect_boundaries (matcher : String → String → Bool) (cfg : BoundaryConfig)
    (pages_data : List PageData) : List Nat :=
  if pages_data.isEmpty then []
  else
    let boundaries :=
      0 :: (List.range pages_data.length).filter
        (fun i => decide (1 ≤ i) && is_boundary_page matcher cfg pages_data i)
    validate_boundaries cfg.min_document_length boundaries pages_data.length

/-! ## The segmenter (`get_document_sections`) -/

/-- The loop of `get_document_sections`: each boundary paired with the page
before the next boundary (the last with `total_pages - 1`), kept only when
the inclusive range is non-empty.  Over `Int`, as the Python ints are. -/
def sectionsLoop (total_pages : Int) : Int → List Int → List (Int × Int)
  | b, [] => if b ≤ total_pages - 1 then [(b, total_pages - 1)] else []
  | b, b2 :: rest =>
    (if b ≤ b2 - 1 then [(b, b2 - 1)] else []) ++ sectionsLoop total_pages b2 rest

/-- `BoundaryDetector.get_document_sections`. -/
def get_document_sections (boundaries : List Int) (total_pages : Int) :
    List (Int × Int) :=
  match boundaries with
  | [] => if 0 < total_pages then [(0, total_pages - 1)] else []
  | b :: rest => sectionsLoop total_pages b rest

/-! ## Concrete instances used by the scenario theorems -/

/-- The stats record the store holds for a type (`self.stats.get(t)`, the
fresh default when the type was never touched). -/
def stats_for (st : FeedbackState) (t : String) : CorrectionStats :=
  (alistGet st.stats t).getD {}

/-- A matcher realising scenario B of the spec: exactly the first and third
default `email` classification patterns match (a `From:` line and a
`Subject:` line are present), and no pattern of any other type does. -/
def email_matcher (p : String) (_text : String) : Bool :=
  p = "From:\\s*.+@.+" || p = "Subject:\\s*.+"

/-- The document text of scenario B. -/
def scenario_b_text : String := "From: a@b.com\nSubject: hi"

/-- Corrections driving the C8 counterexample: 5 old corrections
(email → letter, sample ZZZZZZ) followed by 1000 newer ones
(rfi → other, empty sample). -/
def c8_ops : List (String × String × String) :=
  List.replicate 5 ("email", "letter", "ZZZZZZ") ++ List.replicate 1000 ("rfi", "other", "")

/-- The store after recording the 1005 corrections of `c8_ops`. -/
def c8_state : FeedbackState :=
  c8_ops.foldl (fun st o => record_correction st "2025-01-01" o.1 o.2.1 (1/2) o.2.2) {}

/-- `c8_state` restricted to the 1000 most recently appended corrections
(the view the claim says every reader observes). -/
def c8_trimmed : FeedbackState :=
  { c8_state with corrections := lastN 1000 c8_state.corrections }

/-- The log entry the first five `c8_ops` operations append. -/
def c8_entry_a : CorrectionEntry :=
  { timestamp := "2025-01-01", original_type := "email", corrected_type := "letter",
    confidence := 1/2, text_sample := "ZZZZZZ" }

/-- The log entry the last thousand `c8_ops` operations append. -/
def c8_entry_b : CorrectionEntry :=
  { timestamp := "2025-01-01", original_type := "rfi", corrected_type := "other",
    confidence := 1/2, text_sample := "" }

/-- Scenario D state: five corrections email → change_order, every sample
containing the token URGENT. -/
def c9_state : FeedbackState :=
  (List.replicate 5 ("email", "change_order", "URGENT")).foldl
    (fun st o => record_correction st "2025-01-01" o.1 o.2.1 (9/10) o.2.2) {}

/-! ## Helper lemmas -/

theorem correction_rate_nonneg (s : CorrectionStats) : 0 ≤ s.correction_rate := by
  unfold CorrectionStats.correction_rate
  split
  · exact le_refl 0
  · positivity

theorem get_confidence_adjustment_bounds (st : FeedbackState) (t : String) :
    (1/2 : ℚ) ≤ get_confidence_adjustment st t ∧ get_confidence_adjustment st t ≤ 1 := by
  unfold get_confidence_adjustment
  cases alistGet st.stats t with
  | none => norm_num
  | some s =>
    dsimp only
    split
    · norm_num
    · refine ⟨le_max_left _ _, max_le (by norm_num) ?_⟩
      have h0 : 0 ≤ s.correction_rate * (1/2) := by
        have := correction_rate_nonneg s
        positivity
      linarith

/-! ## C5: confidence adjustment (`get_confidence_adjustment`) -/

/-- C5: on every feedback-store state reachable from the empty store and
every label, the confidence adjustment lies in [1/2, 1]; it is 1 whenever
the label has fewer than 5 recorded classifications, and otherwise equals
`max (1/2) (1 - correction_rate * (1/2))` — also when corrections exceed
classifications (the rate is then above 1 and the max clamps at 1/2). -/
theorem C5_confidence_adjustment (st : FeedbackState) (_hst : Reachable st) (t : String) :
    ((1/2 : ℚ) ≤ get_confidence_adjustment st t ∧ get_confidence_adjustment st t ≤ 1)
    ∧ ((stats_for st t).total_classifications < 5 → get_confidence_adjustment st t = 1)
    ∧ (5 ≤ (stats_for st t).total_classifications →
        get_confidence_adjustment st t
          = max (1/2 : ℚ) (1 - (stats_for st t).correction_rate * (1/2))) := by
  refine ⟨get_confidence_adjustment_bounds st t, ?_, ?_⟩
  · intro h
    unfold stats_for at h
    unfold get_confidence_adjustment
    cases hs : alistGet st.stats t with
    | none => rfl
    | some s =>
      rw [hs] at h
      simp only [Option.getD_some] at h
      simp [h]
  · intro h
    unfold stats_for at h ⊢
    unfold get_confidence_adjustment
    cases hs : alistGet st.stats t with
    | none =>
      rw [hs] at h
      simp only [Option.getD_none] at h
      exact absurd h (by decide)
    | some s =>
      rw [hs] at h
      simp only [Option.getD_some] at h ⊢
      rw [if_neg (by omega)]

/-- C5 witness: the empty store is reachable and gives adjustment 1 for
`email`, inside the bounds. -/
theorem C5_witness :
    ((1/2 : ℚ) ≤ get_confidence_adjustment {} "email"
      ∧ get_confidence_adjustment {} "email" ≤ 1)
    ∧ get_confidence_adjustment {} "email" = 1 :=
  ⟨(C5_confidence_adjustment {} Reachable.empty "email").1,
   (C5_confidence_adjustment {} Reachable.empty "email").2.1 (by decide)⟩

/-! ## C3: `ClassificationResult.__post_init__` validation -/

/-- C3: constructing a `ClassificationResult` fails exactly when the
confidence is outside [0, 1] or the label or method is outside its closed
set, and a successful construction returns the fields unchanged (no
clamping). -/
theorem C3_post_init_validation (r : ClassificationResult) :
    (r.post_init = Except.ok r ↔
      (0 ≤ r.confidence ∧ r.confidence ≤ 1 ∧ r.document_type ∈ valid_types ∧
        r.method_used ∈ valid_methods))
    ∧ ((∃ msg, r.post_init = Except.error msg) ↔
      ¬ (0 ≤ r.confidence ∧ r.confidence ≤ 1 ∧ r.document_type ∈ valid_types ∧
        r.method_used ∈ valid_methods))
    ∧ (∀ r2, r.post_init = Except.ok r2 → r2 = r) := by
  unfold ClassificationResult.post_init
  split_ifs with h1 h2 h3 <;> refine ⟨?_, ?_, ?_⟩ <;> simp_all

/-! ## C6: which return paths of `classify_document` record a classification -/

/-- C6 counterexample: a call on text matching no pattern (no external
classifier) returns a fallback result while leaving the feedback store
untouched — nothing is recorded for the returned type `other`, refuting the
claim that every return path records a classification event. -/
theorem C6_counterexample :
    (classify_document (fun _ _ => false) none default_config (some {}) "hello").1.method_used
        = "fallback"
    ∧ (classify_document (fun _ _ => false) none default_config (some {}) "hello").1.document_type
        = "other"
    ∧ (classify_document (fun _ _ => false) none default_config (some {}) "hello").2 = some {}
    ∧ alistGet (FeedbackState.stats {}) "other" = none := by
  have hb : is_blank "hello" = false := by decide
  have ht : truncated_input default_config "hello" = "hello" := by decide
  have hm : ∀ dtp ∈ default_rule_patterns,
      rule_matches (fun _ _ => false) (upper "hello") dtp = [] := by decide
  refine ⟨?_, ?_, ?_, rfl⟩ <;>
    norm_num [classify_document, classify_by_rules, rule_best_fold, rule_score,
      hb, ht, hm, ClassificationMethod.value, DocumentType.value,
      List.foldl_cons, List.foldl_nil, default_rule_patterns,
      show default_config.confidence_threshold = 7/10 from rfl,
      show default_config.rule_patterns = default_rule_patterns from rfl]

/-- C6 as amended: `classify_document` records a classification event for
the returned type exactly on the path where the rule-based confidence meets
the threshold; the empty-text path and every below-threshold path leave the
feedback store unchanged. -/
theorem C6_amended_recording (matcher : String → String → Bool)
    (api_outcome : Option ClassificationResult) (cfg : ClassificationConfig)
    (fb : Option FeedbackState) (text_sample : String) :
    (is_blank text_sample = true →
      (classify_document matcher api_outcome cfg fb text_sample).2 = fb)
    ∧ (¬ is_blank text_sample = true →
        cfg.confidence_threshold ≤
          (classify_by_rules matcher fb cfg (truncated_input cfg text_sample)).confidence →
        (classify_document matcher api_outcome cfg fb text_sample).1
          = classify_by_rules matcher fb cfg (truncated_input cfg text_sample)
        ∧ (classify_document matcher api_outcome cfg fb text_sample).2
          = fb.map (fun f => record_classification f
              (classify_by_rules matcher fb cfg (truncated_input cfg text_sample)).document_type))
    ∧ (¬ is_blank text_sample = true →
        (classify_by_rules matcher fb cfg (truncated_input cfg text_sample)).confidence <
          cfg.confidence_threshold →
        (classify_document matcher api_outcome cfg fb text_sample).2 = fb) := by
  unfold classify_document
  refine ⟨fun h => by rw [if_pos h], fun h hge => ?_, fun h hlt => ?_⟩
  · rw [if_neg h]
    simp only [if_pos hge]
    exact ⟨trivial, trivial⟩
  · rw [if_neg h]
    simp only [if_neg (not_le.mpr hlt)]
    cases api_outcome with
    | none => dsimp only; split <;> rfl
    | some api_result => dsimp only; split <;> rfl

/-! ## C7: the API/rule confidence blend -/

/-- C7: when the text is not blank, the rule-based confidence is below the
threshold and an external result is obtained, `classify_document` returns
whichever of the two raw results had the higher confidence (ties to the
rule-based one), with its confidence overwritten by
`0.3 * rule + 0.7 * api` and its method tag kept; the feedback store is not
touched on this path. -/
theorem C7_api_blend (matcher : String → String → Bool) (cfg : ClassificationConfig)
    (fb : Option FeedbackState) (text_sample : String) (api_result : ClassificationResult)
    (hne : is_blank text_sample = false)
    (hlow : (classify_by_rules matcher fb cfg (truncated_input cfg text_sample)).confidence <
      cfg.confidence_threshold) :
    ((classify_by_rules matcher fb cfg (truncated_input cfg text_sample)).confidence <
        api_result.confidence →
      (classify_document matcher (some api_result) cfg fb text_sample).1
        = { api_result with confidence :=
            (classify_by_rules matcher fb cfg (truncated_input cfg text_sample)).confidence * (3/10)
              + api_result.confidence * (7/10) })
    ∧ (api_result.confidence ≤
        (classify_by_rules matcher fb cfg (truncated_input cfg text_sample)).confidence →
      (classify_document matcher (some api_result) cfg fb text_sample).1
        = { classify_by_rules matcher fb cfg (truncated_input cfg text_sample) with
            confidence :=
            (classify_by_rules matcher fb cfg (truncated_input cfg text_sample)).confidence * (3/10)
              + api_result.confidence * (7/10) })
    ∧ (classify_document matcher (some api_result) cfg fb text_sample).2 = fb := by
  unfold classify_document
  rw [if_neg (by simp [hne])]
  dsimp only
  rw [if_neg (not_le.mpr hlow)]
  refine ⟨fun h => by rw [if_pos h], fun h => by rw [if_neg (not_lt.mpr h)], ?_⟩
  split <;> rfl

/-- C7 witness: with no matching rule pattern (rule confidence 0) and an
external result `letter` with confidence 4/5, the blend
`0 * 0.3 + 4/5 * 0.7 = 14/25` is returned on the API result. -/
theorem C7_witness :
    (classify_document (fun _ _ => false)
        (some { document_type := "letter", confidence := 4/5, method_used := "api" })
        default_config none "hello").1
      = { document_type := "letter", confidence := 14/25, method_used := "api" } := by
  have h0 : (classify_by_rules (fun _ _ => false) none default_config
      (truncated_input default_config "hello")).confidence = 0 := by
    have ht : truncated_input default_config "hello" = "hello" := by decide
    have hm : ∀ dtp ∈ default_rule_patterns,
        rule_matches (fun _ _ => false) (upper "hello") dtp = [] := by decide
    norm_num [classify_by_rules, rule_best_fold, rule_score, ht, hm,
      List.foldl_cons, List.foldl_nil, default_rule_patterns,
      show default_config.rule_patterns = default_rule_patterns from rfl]
  have h := C7_api_blend (fun _ _ => false) default_config none "hello"
    { document_type := "letter", confidence := 4/5, method_used := "api" }
    (by decide) (by rw [h0]; norm_num [default_config])
  rw [h.1 (by rw [h0]; norm_num)]
  rw [h0]
  norm_num

/-! ## C10: the returned confidence always lies in [0, 1] -/

theorem feedback_adjustment_bounds (fb : Option FeedbackState) (t : String) :
    (1/2 : ℚ) ≤ feedback_adjustment fb t ∧ feedback_adjustment fb t ≤ 1 := by
  cases fb with
  | none => norm_num [feedback_adjustment]
  | some f => exact get_confidence_adjustment_bounds f t

theorem rule_score_bounds (matcher : String → String → Bool) (fb : Option FeedbackState)
    (text_upper : String) (dtp : String × List String) :
    0 ≤ rule_score matcher fb text_upper dtp ∧ rule_score matcher fb text_upper dtp ≤ 1 := by
  unfold rule_score
  dsimp only
  split
  · norm_num
  · have hadj := feedback_adjustment_bounds fb dtp.1
    have hmin1 : min ((6/10 : ℚ) +
        (((rule_matches matcher text_upper dtp).length : ℚ) - 1) * (2/10)) 1 ≤ 1 :=
      min_le_right _ _
    have hmin0 : 0 ≤ min ((6/10 : ℚ) +
        (((rule_matches matcher text_upper dtp).length : ℚ) - 1) * (2/10)) 1 := by
      have hcast : (0 : ℚ) ≤ ((rule_matches matcher text_upper dtp).length : ℚ) :=
        Nat.cast_nonneg _
      rename_i hne
      have hlen : 1 ≤ (rule_matches matcher text_upper dtp).length := by
        cases hms : rule_matches matcher text_upper dtp with
        | nil => rw [hms] at hne; simp at hne
        | cons a l => simp [hms]
      have hlen2 : (1 : ℚ) ≤ ((rule_matches matcher text_upper dtp).length : ℚ) := by
        exact_mod_cast hlen
      refine le_min (by linarith) (by norm_num)
    constructor
    · exact mul_nonneg hmin0 (by linarith [hadj.1])
    · nlinarith [hadj.1, hadj.2]

theorem rule_best_fold_nil (matcher : String → String → Bool) (fb : Option FeedbackState)
    (text_upper : String) (init : ℚ × String × List String) :
    rule_best_fold matcher fb text_upper [] init = init := rfl

theorem rule_best_fold_cons (matcher : String → String → Bool) (fb : Option FeedbackState)
    (text_upper : String) (dtp : String × List String) (ps : List (String × List String))
    (init : ℚ × String × List String) :
    rule_best_fold matcher fb text_upper (dtp :: ps) init
      = rule_best_fold matcher fb text_upper ps
          (if init.1 < rule_score matcher fb text_upper dtp
           then (rule_score matcher fb text_upper dtp, dtp.1, rule_matches matcher text_upper dtp)
           else init) := rfl

theorem rule_best_fold_fst_bounds (matcher : String → String → Bool)
    (fb : Option FeedbackState) (text_upper : String) :
    ∀ (patterns : List (String × List String)) (init : ℚ × String × List String),
      0 ≤ init.1 → init.1 ≤ 1 →
      0 ≤ (rule_best_fold matcher fb text_upper patterns init).1
        ∧ (rule_best_fold matcher fb text_upper patterns init).1 ≤ 1 := by
  intro patterns
  induction patterns with
  | nil => intro init h0 h1; exact ⟨h0, h1⟩
  | cons dtp ps ih =>
    intro init h0 h1
    rw [rule_best_fold_cons]
    by_cases h : init.1 < rule_score matcher fb text_upper dtp
    · rw [if_pos h]
      exact ih (rule_score matcher fb text_upper dtp, dtp.1,
          rule_matches matcher text_upper dtp)
        (rule_score_bounds matcher fb text_upper dtp).1
        (rule_score_bounds matcher fb text_upper dtp).2
    · rw [if_neg h]
      exact ih init h0 h1

theorem classify_by_rules_confidence_bounds (matcher : String → String → Bool)
    (fb : Option FeedbackState) (cfg : ClassificationConfig) (text : String) :
    0 ≤ (classify_by_rules matcher fb cfg text).confidence
      ∧ (classify_by_rules matcher fb cfg text).confidence ≤ 1 :=
  rule_best_fold_fst_bounds matcher fb (upper text) cfg.rule_patterns _
    (le_refl 0) (by norm_num)

/-- C10: every result `classify_document` returns carries a confidence in
[0, 1] — including the blend path, which overwrites the confidence after
construction and so bypasses the constructor validation — provided a
supplied external result has confidence in [0, 1] (the blend is a convex
combination). -/
theorem C10_confidence_unit_interval (matcher : String → String → Bool)
    (api_outcome : Option ClassificationResult) (cfg : ClassificationConfig)
    (fb : Option FeedbackState) (text_sample : String)
    (hapi : ∀ a, api_outcome = some a → 0 ≤ a.confidence ∧ a.confidence ≤ 1) :
    0 ≤ (classify_document matcher api_outcome cfg fb text_sample).1.confidence
      ∧ (classify_document matcher api_outcome cfg fb text_sample).1.confidence ≤ 1 := by
  have hrule := classify_by_rules_confidence_bounds matcher fb cfg
    (truncated_input cfg text_sample)
  unfold classify_document
  split
  · norm_num
  · dsimp only
    split
    · exact hrule
    · split
      · rename_i api_result
        have ha := hapi api_result rfl
        split <;>
          exact ⟨by dsimp only; nlinarith [hrule.1, hrule.2, ha.1, ha.2],
                 by dsimp only; nlinarith [hrule.1, hrule.2, ha.1, ha.2]⟩
      · split
        · exact hrule
        · norm_num

/-- C10 witness: the bounds at a concrete call (no matching pattern, no
external result). -/
theorem C10_witness :
    0 ≤ (classify_document (fun _ _ => false) none default_config none "hello").1.confidence
      ∧ (classify_document (fun _ _ => false) none default_config none "hello").1.confidence
        ≤ 1 :=
  C10_confidence_unit_interval (fun _ _ => false) none default_config none "hello"
    (fun a h => by cases h)

/-! ## C1: invariants of `detect_boundaries` -/

theorem mem_insertAsc {x y : Nat} : ∀ {l : List Nat}, y ∈ insertAsc x l → y = x ∨ y ∈ l := by
  intro l
  induction l with
  | nil => intro h; simp [insertAsc] at h; exact Or.inl h
  | cons a l ih =>
    intro h
    unfold insertAsc at h
    split_ifs at h with h1 h2
    · rcases List.mem_cons.mp h with h | h
      · exact Or.inl h
      · exact Or.inr h
    · exact Or.inr h
    · rcases List.mem_cons.mp h with h | h
      · exact Or.inr (by simp [h])
      · rcases ih h with h3 | h3
        · exact Or.inl h3
        · exact Or.inr (by simp [h3])

theorem pairwise_insertAsc {x : Nat} :
    ∀ {l : List Nat}, l.Pairwise (· < ·) → (insertAsc x l).Pairwise (· < ·) := by
  intro l
  induction l with
  | nil => intro _; simp [insertAsc]
  | cons a l ih =>
    intro hp
    rcases List.pairwise_cons.mp hp with ⟨ha, hl⟩
    unfold insertAsc
    split_ifs with h1 h2
    · refine List.pairwise_cons.mpr ⟨?_, hp⟩
      intro b hb
      rcases List.mem_cons.mp hb with hb | hb
      · omega
      · exact lt_trans h1 (ha b hb)
    · exact hp
    · refine List.pairwise_cons.mpr ⟨?_, ih hl⟩
      intro b hb
      rcases mem_insertAsc hb with hb | hb
      · omega
      · exact ha b hb

theorem pairwise_sortedDedup (xs : List Nat) : (sortedDedup xs).Pairwise (· < ·) := by
  induction xs with
  | nil => simp [sortedDedup]
  | cons a xs ih => exact pairwise_insertAsc ih

theorem mem_sortedDedup {y : Nat} : ∀ {xs : List Nat}, y ∈ sortedDedup xs → y ∈ xs := by
  intro xs
  induction xs with
  | nil => intro h; simp [sortedDedup] at h
  | cons a xs ih =>
    intro h
    rcases mem_insertAsc h with h1 | h1
    · simp [h1]
    · simp [ih h1]

theorem validateLoop_spec (min_len total_pages : Nat) :
    ∀ (pending : List Nat) (prev : Nat),
      pending.Pairwise (· < ·) → (∀ x ∈ pending, prev < x) →
      List.Chain' (fun a b => a < b ∧ a + min_len ≤ b)
          (prev :: validateLoop min_len total_pages pending prev)
      ∧ ∀ x ∈ validateLoop min_len total_pages pending prev, x < total_pages ∧ prev < x := by
  intro pending
  induction pending with
  | nil => intro prev _ _; exact ⟨List.chain'_singleton prev, by simp [validateLoop]⟩
  | cons b bs ih =>
    intro prev hp hm
    rcases List.pairwise_cons.mp hp with ⟨hb, hbs⟩
    have hmb : prev < b := hm b (by simp)
    unfold validateLoop
    split_ifs with h1 h2
    · exact ih prev hbs (fun x hx => hm x (by simp [hx]))
    · rcases ih b hbs hb with ⟨hchain, hmem⟩
      refine ⟨List.chain'_cons.mpr ⟨⟨hmb, h2⟩, hchain⟩, ?_⟩
      intro x hx
      rcases List.mem_cons.mp hx with hx | hx
      · omega
      · rcases hmem x hx with ⟨hx1, hx2⟩
        exact ⟨hx1, lt_trans hmb hx2⟩
    · exact ih prev hbs (fun x hx => hm x (by simp [hx]))

/-- C1: on the empty page list `detect_boundaries` returns the empty list; on
any non-empty page list the result starts with page 0, is strictly
increasing (hence deduplicated) with adjacent entries at least
`min_document_length` apart, and every entry is below the page count. -/
theorem C1_detect_boundaries_invariants (matcher : String → String → Bool)
    (cfg : BoundaryConfig) (pages_data : List PageData) :
    (pages_data = [] → detect_boundaries matcher cfg pages_data = [])
    ∧ (pages_data ≠ [] →
        (detect_boundaries matcher cfg pages_data).head? = some 0
        ∧ List.Chain' (fun a b => a < b ∧ a + cfg.min_document_length ≤ b)
            (detect_boundaries matcher cfg pages_data)
        ∧ ∀ x ∈ detect_boundaries matcher cfg pages_data, x < pages_data.length) := by
  constructor
  · intro h
    subst h
    rfl
  · intro h
    have hne : pages_data.isEmpty = false := by
      cases pages_data with
      | nil => exact absurd rfl h
      | cons a l => rfl
    have hdet : detect_boundaries matcher cfg pages_data
        = 0 :: validateLoop cfg.min_document_length pages_data.length
            (sortedDedup ((List.range pages_data.length).filter
              (fun i => decide (1 ≤ i) && is_boundary_page matcher cfg pages_data i))) 0 := by
      unfold detect_boundaries
      rw [hne]
      rfl
    have hspec := validateLoop_spec cfg.min_document_length pages_data.length
      (sortedDedup ((List.range pages_data.length).filter
        (fun i => decide (1 ≤ i) && is_boundary_page matcher cfg pages_data i))) 0
      (pairwise_sortedDedup _)
      (by
        intro x hx
        have hx2 := mem_sortedDedup hx
        have hx3 := List.of_mem_filter hx2
        have hx4 : decide (1 ≤ x) = true := by
          cases hand : (decide (1 ≤ x) && is_boundary_page matcher cfg pages_data x)
          · rw [hand] at hx3; cases hx3
          · exact (Bool.and_eq_true _ _ |>.mp hand).1
        have := of_decide_eq_true hx4
        omega)
    rw [hdet]
    refine ⟨rfl, hspec.1, ?_⟩
    intro x hx
    rcases List.mem_cons.mp hx with hx | hx
    · subst hx
      cases pages_data with
      | nil => exact absurd rfl h
      | cons a l => simp
    · exact (hspec.2 x hx).1

/-! ## C2: `get_document_sections` covers the page range exactly -/

theorem chain_sections_pairwise :
    ∀ (l : List (Int × Int)), List.Chain' (fun s t => t.1 = s.2 + 1) l →
      (∀ s ∈ l, s.1 ≤ s.2) → l.Pairwise (fun s t => s.2 < t.1) := by
  intro l
  induction l with
  | nil => intro _ _; exact List.Pairwise.nil
  | cons s l ih =>
    intro hc hb
    have hcl : List.Chain' (fun s t => t.1 = s.2 + 1) l := hc.tail
    have hbl : ∀ t ∈ l, t.1 ≤ t.2 := fun t ht => hb t (List.mem_cons_of_mem s ht)
    refine List.pairwise_cons.mpr ⟨?_, ih hcl hbl⟩
    intro t ht
    cases l with
    | nil => simp at ht
    | cons u l2 =>
      have hrel : u.1 = s.2 + 1 := (List.chain'_cons.mp hc).1
      have hpl : (u :: l2).Pairwise (fun s t => s.2 < t.1) := ih hcl hbl
      rcases List.mem_cons.mp ht with h | h
      · subst h; omega
      · have h1 : u.2 < t.1 := (List.pairwise_cons.mp hpl).1 t h
        have h2 : u.1 ≤ u.2 := hbl u (by simp)
        omega

theorem sectionsLoop_spec (total_pages : Int) :
    ∀ (rest : List Int) (b : Int),
      List.Chain' (· < ·) (b :: rest) → (∀ x ∈ b :: rest, x < total_pages) →
      ((sectionsLoop total_pages b rest).map Prod.fst).head? = some b
      ∧ ((sectionsLoop total_pages b rest).map Prod.snd).getLast? = some (total_pages - 1)
      ∧ List.Chain' (fun s t => t.1 = s.2 + 1) (sectionsLoop total_pages b rest)
      ∧ (∀ s ∈ sectionsLoop total_pages b rest, b ≤ s.1 ∧ s.1 ≤ s.2 ∧ s.2 ≤ total_pages - 1)
      ∧ (∀ p : Int, b ≤ p → p ≤ total_pages - 1 →
          ∃ s ∈ sectionsLoop total_pages b rest, s.1 ≤ p ∧ p ≤ s.2) := by
  intro rest
  induction rest with
  | nil =>
    intro b _ hmem
    have hb : b < total_pages := hmem b (by simp)
    have hcond : b ≤ total_pages - 1 := by omega
    unfold sectionsLoop
    rw [if_pos hcond]
    refine ⟨rfl, rfl, List.chain'_singleton _, ?_, ?_⟩
    · intro s hs
      rw [List.mem_singleton] at hs
      subst hs
      exact ⟨le_refl b, hcond, le_refl _⟩
    · intro p hp1 hp2
      exact ⟨(b, total_pages - 1), by simp, hp1, hp2⟩
  | cons b2 rest2 ih =>
    intro b hchain hmem
    have hbb2 : b < b2 := (List.chain'_cons.mp hchain).1
    have hchain2 : List.Chain' (· < ·) (b2 :: rest2) := (List.chain'_cons.mp hchain).2
    have hmem2 : ∀ x ∈ b2 :: rest2, x < total_pages :=
      fun x hx => hmem x (List.mem_cons_of_mem b hx)
    have hcond : b ≤ b2 - 1 := by omega
    rcases ih b2 hchain2 hmem2 with ⟨ihead, ilast, ichain, ibounds, icover⟩
    have hL : sectionsLoop total_pages b (b2 :: rest2)
        = (b, b2 - 1) :: sectionsLoop total_pages b2 rest2 := by
      rw [show sectionsLoop total_pages b (b2 :: rest2)
            = (if b ≤ b2 - 1 then [(b, b2 - 1)] else [])
                ++ sectionsLoop total_pages b2 rest2 from rfl,
          if_pos hcond, List.singleton_append]
    obtain ⟨s0, L2, hL2⟩ : ∃ s0 L2, sectionsLoop total_pages b2 rest2 = s0 :: L2 := by
      cases hLL : sectionsLoop total_pages b2 rest2 with
      | nil => rw [hLL] at ihead; simp at ihead
      | cons s0 L2 => exact ⟨s0, L2, rfl⟩
    have hs0 : s0.1 = b2 := by
      rw [hL2] at ihead
      simpa using ihead
    rw [hL]
    refine ⟨rfl, ?_, ?_, ?_, ?_⟩
    · rw [hL2] at ilast ⊢
      simpa [List.getLast?_cons_cons] using ilast
    · rw [hL2] at ichain ⊢
      exact List.chain'_cons.mpr ⟨by omega, ichain⟩
    · intro s hs
      rcases List.mem_cons.mp hs with h | h
      · subst h
        have hb2 : b2 < total_pages := hmem2 b2 (by simp)
        exact ⟨le_refl b, hcond, by omega⟩
      · rcases ibounds s h with ⟨h1, h2, h3⟩
        exact ⟨by omega, h2, h3⟩
    · intro p hp1 hp2
      by_cases hple : p ≤ b2 - 1
      · exact ⟨(b, b2 - 1), by simp, hp1, hple⟩
      · rcases icover p (by omega) hp2 with ⟨s, hs1, hs2⟩
        exact ⟨s, List.mem_cons_of_mem _ hs1, hs2⟩

/-- C2: for a strictly ascending boundary list beginning with 0 whose members
all lie below `total_pages ≥ 1`, the sections are non-empty inclusive ranges,
contiguous (each starts one page past the previous end), pairwise disjoint,
the first starts at page 0, the last ends at `total_pages - 1`, and a page is
covered by some section exactly when it lies in `[0, total_pages - 1]`. -/
theorem C2_get_document_sections (rest : List Int) (total_pages : Int)
    (hchain : List.Chain' (· < ·) ((0 : Int) :: rest))
    (hmem : ∀ x ∈ ((0 : Int) :: rest), x < total_pages)
    (_hpos : 1 ≤ total_pages) :
    ((get_document_sections ((0 : Int) :: rest) total_pages).map Prod.fst).head? = some 0
    ∧ ((get_document_sections ((0 : Int) :: rest) total_pages).map Prod.snd).getLast?
        = some (total_pages - 1)
    ∧ List.Chain' (fun s t => t.1 = s.2 + 1)
        (get_document_sections ((0 : Int) :: rest) total_pages)
    ∧ (∀ s ∈ get_document_sections ((0 : Int) :: rest) total_pages,
        0 ≤ s.1 ∧ s.1 ≤ s.2 ∧ s.2 ≤ total_pages - 1)
    ∧ (get_document_sections ((0 : Int) :: rest) total_pages).Pairwise
        (fun s t => s.2 < t.1)
    ∧ (∀ p : Int, (0 ≤ p ∧ p ≤ total_pages - 1) ↔
        ∃ s ∈ get_document_sections ((0 : Int) :: rest) total_pages,
          s.1 ≤ p ∧ p ≤ s.2) := by
  have h0 : get_document_sections ((0 : Int) :: rest) total_pages
      = sectionsLoop total_pages 0 rest := rfl
  rcases sectionsLoop_spec total_pages rest 0 hchain hmem with ⟨h1, h2, h3, h4, h5⟩
  rw [h0]
  refine ⟨h1, h2, h3, h4, chain_sections_pairwise _ h3 (fun s hs => (h4 s hs).2.1), ?_⟩
  intro p
  constructor
  · intro hp
    exact h5 p hp.1 hp.2
  · intro hp
    rcases hp with ⟨s, hs, hs1, hs2⟩
    rcases h4 s hs with ⟨hb1, _, hb3⟩
    exact ⟨by omega, by omega⟩

/-- C2 witness: scenario E, boundaries [0, 3, 7] over 10 pages give the
sections [(0, 2), (3, 6), (7, 9)], with all the structural properties at
that instance. -/
theorem C2_witness :
    get_document_sections [0, 3, 7] 10 = [(0, 2), (3, 6), (7, 9)]
    ∧ (((get_document_sections ((0 : Int) :: [3, 7]) 10).map Prod.fst).head? = some 0
    ∧ ((get_document_sections ((0 : Int) :: [3, 7]) 10).map Prod.snd).getLast?
        = some (10 - 1)
    ∧ List.Chain' (fun s t => t.1 = s.2 + 1)
        (get_document_sections ((0 : Int) :: [3, 7]) 10)
    ∧ (∀ s ∈ get_document_sections ((0 : Int) :: [3, 7]) 10,
        0 ≤ s.1 ∧ s.1 ≤ s.2 ∧ s.2 ≤ 10 - 1)
    ∧ (get_document_sections ((0 : Int) :: [3, 7]) 10).Pairwise
        (fun s t => s.2 < t.1)
    ∧ (∀ p : Int, (0 ≤ p ∧ p ≤ 10 - 1) ↔
        ∃ s ∈ get_document_sections ((0 : Int) :: [3, 7]) 10,
          s.1 ≤ p ∧ p ≤ s.2)) :=
  ⟨by decide,
   C2_get_document_sections [3, 7] 10
     (by norm_num [List.chain'_cons, List.chain'_singleton]) (by decide) (by norm_num)⟩

/-! ## C4: rule-based scoring, argmax with first-wins ties, scenario B -/

theorem foldl_max_le_self (l : List ℚ) : ∀ a : ℚ, a ≤ l.foldl max a := by
  induction l with
  | nil => intro a; exact le_refl a
  | cons x xs ih => intro a; exact le_trans (le_max_left a x) (ih (max a x))

theorem mem_le_foldl_max (l : List ℚ) : ∀ (a x : ℚ), x ∈ l → x ≤ l.foldl max a := by
  induction l with
  | nil => intro a x h; simp at h
  | cons y ys ih =>
    intro a x h
    rcases List.mem_cons.mp h with h | h
    · subst h
      exact le_trans (le_max_right a x) (foldl_max_le_self ys (max a x))
    · exact ih (max a y) x h

theorem rule_best_fold_conf (matcher : String → String → Bool) (fb : Option FeedbackState)
    (text_upper : String) :
    ∀ (patterns : List (String × List String)) (init : ℚ × String × List String),
      (rule_best_fold matcher fb text_upper patterns init).1
        = (patterns.map (rule_score matcher fb text_upper)).foldl max init.1 := by
  intro patterns
  induction patterns with
  | nil => intro init; rfl
  | cons dtp ps ih =>
    intro init
    rw [rule_best_fold_cons, List.map_cons, List.foldl_cons]
    by_cases h : init.1 < rule_score matcher fb text_upper dtp
    · rw [if_pos h, ih]
      congr 1
      exact (max_eq_right h.le).symm
    · rw [if_neg h, ih]
      congr 1
      exact (max_eq_left (not_lt.mp h)).symm

theorem rule_best_fold_keeps (matcher : String → String → Bool) (fb : Option FeedbackState)
    (text_upper : String) :
    ∀ (patterns : List (String × List String)) (init : ℚ × String × List String),
      (∀ dtp ∈ patterns, rule_score matcher fb text_upper dtp ≤ init.1) →
      rule_best_fold matcher fb text_upper patterns init = init := by
  intro patterns
  induction patterns with
  | nil => intro init _; rfl
  | cons dtp ps ih =>
    intro init h
    rw [rule_best_fold_cons, if_neg (not_lt.mpr (h dtp (by simp)))]
    exact ih init (fun d hd => h d (List.mem_cons_of_mem _ hd))

theorem rule_best_fold_winner (matcher : String → String → Bool) (fb : Option FeedbackState)
    (text_upper : String) :
    ∀ (patterns : List (String × List String)) (init : ℚ × String × List String),
      init.1 < (rule_best_fold matcher fb text_upper patterns init).1 →
      ∃ dtp, patterns.find? (fun p => decide (rule_score matcher fb text_upper p
            = (rule_best_fold matcher fb text_upper patterns init).1)) = some dtp
        ∧ (rule_best_fold matcher fb text_upper patterns init).2.1 = dtp.1
        ∧ (rule_best_fold matcher fb text_upper patterns init).2.2
            = rule_matches matcher text_upper dtp := by
  intro patterns
  induction patterns with
  | nil => intro init h; exact absurd h (lt_irrefl _)
  | cons dtp ps ih =>
    intro init hlt
    rw [rule_best_fold_cons] at hlt ⊢
    by_cases hee : rule_score matcher fb text_upper dtp
        = (rule_best_fold matcher fb text_upper ps
            (if init.1 < rule_score matcher fb text_upper dtp
             then (rule_score matcher fb text_upper dtp, dtp.1,
                   rule_matches matcher text_upper dtp)
             else init)).1
    · have hsc : init.1 < rule_score matcher fb text_upper dtp := by
        rw [hee]
        exact hlt
      rw [if_pos hsc] at hee hlt ⊢
      have hkeep : rule_best_fold matcher fb text_upper ps
          (rule_score matcher fb text_upper dtp, dtp.1, rule_matches matcher text_upper dtp)
          = (rule_score matcher fb text_upper dtp, dtp.1,
             rule_matches matcher text_upper dtp) := by
        apply rule_best_fold_keeps
        intro d hd
        have h1 : rule_score matcher fb text_upper d
            ≤ (rule_best_fold matcher fb text_upper ps
                (rule_score matcher fb text_upper dtp, dtp.1,
                 rule_matches matcher text_upper dtp)).1 := by
          rw [rule_best_fold_conf]
          exact mem_le_foldl_max _ _ _ (List.mem_map_of_mem _ hd)
        rw [← hee] at h1
        exact h1
      refine ⟨dtp, ?_, ?_, ?_⟩
      · apply List.find?_cons_of_pos
        rw [hkeep]
        rw [hkeep] at hee
        exact decide_eq_true hee
      · rw [hkeep]
      · rw [hkeep]
    · have hfalse : ¬ ((fun p => decide (rule_score matcher fb text_upper p
            = (rule_best_fold matcher fb text_upper ps
                (if init.1 < rule_score matcher fb text_upper dtp
                 then (rule_score matcher fb text_upper dtp, dtp.1,
                       rule_matches matcher text_upper dtp)
                 else init)).1)) dtp = true) := by
        simp only [decide_eq_true_eq]
        exact hee
      have hle : (if init.1 < rule_score matcher fb text_upper dtp
           then (rule_score matcher fb text_upper dtp, dtp.1,
                 rule_matches matcher text_upper dtp)
           else init).1
          ≤ (rule_best_fold matcher fb text_upper ps
              (if init.1 < rule_score matcher fb text_upper dtp
               then (rule_score matcher fb text_upper dtp, dtp.1,
                     rule_matches matcher text_upper dtp)
               else init)).1 := by
        rw [rule_best_fold_conf]
        exact foldl_max_le_self _ _
      have hne2 : (if init.1 < rule_score matcher fb text_upper dtp
           then (rule_score matcher fb text_upper dtp, dtp.1,
                 rule_matches matcher text_upper dtp)
           else init).1
          ≠ (rule_best_fold matcher fb text_upper ps
              (if init.1 < rule_score matcher fb text_upper dtp
               then (rule_score matcher fb text_upper dtp, dtp.1,
                     rule_matches matcher text_upper dtp)
               else init)).1 := by
        by_cases hc : init.1 < rule_score matcher fb text_upper dtp
        · rw [if_pos hc]
          rw [if_pos hc] at hee
          intro hx
          exact hee hx
        · rw [if_neg hc]
          intro hx
          rw [if_neg hc] at hlt
          rw [hx] at hlt
          exact lt_irrefl _ hlt
      rw [@List.find?_cons_of_neg _
        (fun p => decide (rule_score matcher fb text_upper p
          = (rule_best_fold matcher fb text_upper ps
              (if init.1 < rule_score matcher fb text_upper dtp
               then (rule_score matcher fb text_upper dtp, dtp.1,
                     rule_matches matcher text_upper dtp)
               else init)).1)) dtp ps hfalse]
      exact ih _ (lt_of_le_of_ne hle hne2)

/-- C4: rule-based scoring gives every type with at least one matching
pattern the confidence `min (0.6 + 0.2 * (matches - 1)) 1` times its
feedback adjustment; the returned confidence is the maximum score over the
types, the winning type is the first one reaching that maximum (the scan
replaces the best only on a strict increase, so earlier-listed types win
ties), and `other` wins when nothing scores.  In scenario B a text matching
exactly the two email patterns (adjustment 1) is returned as email,
confidence 4/5, method rule_based, at or above the 7/10 threshold. -/
theorem C4_rule_based_scoring (matcher : String → String → Bool) (fb : Option FeedbackState)
    (cfg : ClassificationConfig) (text : String) :
    (∀ dtp ∈ cfg.rule_patterns, (rule_matches matcher (upper text) dtp).isEmpty = false →
        rule_score matcher fb (upper text) dtp
          = min ((6/10 : ℚ)
                + (((rule_matches matcher (upper text) dtp).length : ℚ) - 1) * (2/10)) 1
              * feedback_adjustment fb dtp.1)
    ∧ (classify_by_rules matcher fb cfg text).confidence
        = (cfg.rule_patterns.map (rule_score matcher fb (upper text))).foldl max 0
    ∧ (classify_by_rules matcher fb cfg text).method_used = "rule_based"
    ∧ (0 < (classify_by_rules matcher fb cfg text).confidence →
        ∃ dtp, cfg.rule_patterns.find? (fun p => decide (rule_score matcher fb (upper text) p
              = (classify_by_rules matcher fb cfg text).confidence)) = some dtp
          ∧ (classify_by_rules matcher fb cfg text).document_type = dtp.1)
    ∧ ((classify_by_rules matcher fb cfg text).confidence = 0 →
        (classify_by_rules matcher fb cfg text).document_type = "other")
    ∧ ((classify_document email_matcher none default_config (some {})
          scenario_b_text).1.document_type = "email"
        ∧ (classify_document email_matcher none default_config (some {})
            scenario_b_text).1.confidence = 4/5
        ∧ (classify_document email_matcher none default_config (some {})
            scenario_b_text).1.method_used = "rule_based"
        ∧ (7/10 : ℚ) ≤ 4/5) := by
  have hconf : (classify_by_rules matcher fb cfg text).confidence
      = (rule_best_fold matcher fb (upper text) cfg.rule_patterns
          ((0 : ℚ), DocumentType.other.value, ([] : List String))).1 := rfl
  refine ⟨?_, ?_, rfl, ?_, ?_, ?_⟩
  · intro dtp _ h
    unfold rule_score
    simp only [h, Bool.false_eq_true, if_false]
  · rw [hconf, rule_best_fold_conf]
  · intro h
    rw [hconf] at h
    rcases rule_best_fold_winner matcher fb (upper text) cfg.rule_patterns
      ((0 : ℚ), DocumentType.other.value, ([] : List String)) h with ⟨dtp, hfind, htype, _⟩
    exact ⟨dtp, hfind, htype⟩
  · intro h
    rw [hconf] at h
    have hkeep := rule_best_fold_keeps matcher fb (upper text) cfg.rule_patterns
      ((0 : ℚ), DocumentType.other.value, ([] : List String))
      (by
        intro d hd
        have h1 : rule_score matcher fb (upper text) d
            ≤ (rule_best_fold matcher fb (upper text) cfg.rule_patterns
                ((0 : ℚ), DocumentType.other.value, ([] : List String))).1 := by
          rw [rule_best_fold_conf]
          exact mem_le_foldl_max _ _ _ (List.mem_map_of_mem _ hd)
        rw [h] at h1
        exact h1)
    show (rule_best_fold matcher fb (upper text) cfg.rule_patterns
        ((0 : ℚ), DocumentType.other.value, ([] : List String))).2.1 = "other"
    rw [hkeep]
    rfl
  · have hb : is_blank scenario_b_text = false := by decide
    have ht : truncated_input default_config scenario_b_text = scenario_b_text := by decide
    have hm : ∀ dtp ∈ default_rule_patterns.tail,
        rule_matches email_matcher (upper scenario_b_text) dtp = [] := by decide
    have hm0 : rule_matches email_matcher (upper scenario_b_text)
        ("email", ["From:\\s*.+@.+", "To:\\s*.+@.+", "Subject:\\s*.+",
                   "Sent:\\s*\\w+.*\\d{4}", "Message-ID:"])
        = ["From:\\s*.+@.+", "Subject:\\s*.+"] := by decide
    refine ⟨?_, ?_, ?_, by norm_num⟩ <;>
      norm_num [classify_document, classify_by_rules, rule_best_fold, rule_score,
        hb, ht, hm, hm0, feedback_adjustment, get_confidence_adjustment, alistGet, min_def,
        ClassificationMethod.value, DocumentType.value, List.cons_ne_nil,
        List.foldl_cons, List.foldl_nil, default_rule_patterns,
        show default_config.confidence_threshold = 7/10 from rfl,
        show default_config.rule_patterns = default_rule_patterns from rfl]

/-! ## C8 and C9: the corrections log, its persistence cap, and
`suggest_pattern_improvements` -/

theorem record_correction_corrections (st : FeedbackState) (ts o c : String) (q : ℚ)
    (s : String) :
    (record_correction st ts o c q s).corrections
      = st.corrections ++ [{ timestamp := ts, original_type := o, corrected_type := c,
                             confidence := q, text_sample := takeChars 200 s }] := rfl

theorem foldl_record_corrections (ts : String) (q : ℚ) :
    ∀ (ops : List (String × String × String)) (st : FeedbackState),
      (ops.foldl (fun st o => record_correction st ts o.1 o.2.1 q o.2.2) st).corrections
        = st.corrections ++ ops.map (fun o =>
            { timestamp := ts, original_type := o.1, corrected_type := o.2.1,
              confidence := q, text_sample := takeChars 200 o.2.2 }) := by
  intro ops
  induction ops with
  | nil => intro st; simp
  | cons o ops ih =>
    intro st
    rw [List.foldl_cons, ih, record_correction_corrections]
    simp

theorem c8_state_corrections :
    c8_state.corrections
      = List.replicate 5 c8_entry_a ++ List.replicate 1000 c8_entry_b := by
  have h1 : takeChars 200 "ZZZZZZ" = "ZZZZZZ" := by decide
  have h2 : takeChars 200 "" = "" := by decide
  unfold c8_state c8_ops
  rw [foldl_record_corrections]
  simp [List.map_replicate, h1, h2, c8_entry_a, c8_entry_b]

theorem alistUpd_alistUpd {κ ν : Type} [DecidableEq κ] :
    ∀ (m : List (κ × ν)) (k : κ) (d : ν) (f g : ν → ν),
      alistUpd (alistUpd m k d f) k d g = alistUpd m k d (fun v => g (f v)) := by
  intro m
  induction m with
  | nil =>
    intro k d f g
    simp [alistUpd]
  | cons kv m ih =>
    intro k d f g
    obtain ⟨k2, v⟩ := kv
    by_cases h : k = k2
    · simp [alistUpd, h]
    · simp [alistUpd, h, ih]

theorem foldl_group_step_replicate (c : CorrectionEntry) :
    ∀ (n : Nat) (m : List ((String × String) × List String)),
      (List.replicate (n + 1) c).foldl group_step m
        = alistUpd m (c.original_type, c.corrected_type) []
            (fun l => l ++ List.replicate (n + 1) c.text_sample) := by
  intro n
  induction n with
  | zero =>
    intro m
    simp [List.replicate, group_step]
  | succ n ih =>
    intro m
    rw [List.replicate_succ, List.foldl_cons, ih,
      show group_step m c = alistUpd m (c.original_type, c.corrected_type) []
        (fun l => l ++ [c.text_sample]) from rfl,
      alistUpd_alistUpd]
    congr 1
    funext l
    simp [List.replicate_succ]

theorem c8_groups :
    correction_groups c8_state
      = [(("email", "letter"), List.replicate 5 "ZZZZZZ"),
         (("rfi", "other"), List.replicate 1000 "")] := by
  have hinner : List.foldl group_step [] (List.replicate 5 c8_entry_a)
      = [(("email", "letter"), List.replicate 5 "ZZZZZZ")] := by
    rw [show List.replicate 5 c8_entry_a = List.replicate (4 + 1) c8_entry_a from rfl,
      foldl_group_step_replicate]
    norm_num [alistUpd, c8_entry_a]
  have houter : List.foldl group_step [(("email", "letter"), List.replicate 5 "ZZZZZZ")]
        (List.replicate 1000 c8_entry_b)
      = [(("email", "letter"), List.replicate 5 "ZZZZZZ"),
         (("rfi", "other"), List.replicate 1000 "")] := by
    rw [show List.replicate 1000 c8_entry_b = List.replicate (999 + 1) c8_entry_b from rfl,
      foldl_group_step_replicate]
    have hne : ¬ (("rfi", "other") : String × String) = ("email", "letter") := by decide
    norm_num [alistUpd, c8_entry_b, hne]
  unfold correction_groups
  rw [c8_state_corrections, List.foldl_append, hinner, houter]

theorem c8_trimmed_corrections :
    c8_trimmed.corrections = List.replicate 1000 c8_entry_b := by
  unfold c8_trimmed
  dsimp only
  rw [c8_state_corrections]
  unfold lastN
  simp only [List.length_append, List.length_replicate]
  exact List.drop_left' (by simp)

theorem c8_groups_trimmed :
    correction_groups c8_trimmed = [(("rfi", "other"), List.replicate 1000 "")] := by
  unfold correction_groups
  rw [c8_trimmed_corrections,
    show List.replicate 1000 c8_entry_b = List.replicate (999 + 1) c8_entry_b from rfl,
    foldl_group_step_replicate]
  simp [alistUpd, c8_entry_b]

theorem findWords_blank_fold :
    ∀ (n : Nat) (acc : List String),
      (List.replicate n "").foldl (fun acc s => acc ++ findWords (upper s)) acc = acc := by
  intro n
  induction n with
  | zero => intro acc; rfl
  | succ n ih =>
    intro acc
    rw [List.replicate_succ, List.foldl_cons,
      show findWords (upper "") = [] from rfl, List.append_nil]
    exact ih acc

theorem find_common_patterns_blank (n : Nat) :
    find_common_patterns (List.replicate n "") = [] := by
  unfold find_common_patterns
  rw [findWords_blank_fold]
  rfl

theorem suggest_loop_cons_error (min_corrections : Nat) {k : String × String}
    {samples : List String} {rest : List ((String × String) × List String)}
    {sug : List (String × List String)}
    (h1 : min_corrections ≤ samples.length)
    (h2 : (find_common_patterns samples).isEmpty = false) :
    suggest_loop min_corrections ((k, samples) :: rest) sug
      = Except.error "NameError: name re is not defined" := by
  unfold suggest_loop
  rw [if_pos h1, if_neg (by simp [h2])]

theorem suggest_loop_cons_skip (min_corrections : Nat) {k : String × String}
    {samples : List String} {rest : List ((String × String) × List String)}
    {sug : List (String × List String)}
    (h1 : min_corrections ≤ samples.length)
    (h2 : find_common_patterns samples = []) :
    suggest_loop min_corrections ((k, samples) :: rest) sug
      = suggest_loop min_corrections rest sug := by
  conv_lhs => unfold suggest_loop
  rw [if_pos h1, if_pos (by simp [h2])]

theorem find_common_patterns_zzz :
    find_common_patterns (List.replicate 5 "ZZZZZZ") = ["ZZZZZZ"] := by
  have hw : findWords (upper "ZZZZZZ") = ["ZZZZZZ"] := by decide
  have hl : ("ZZZZZZ" : String).length = 6 := by decide
  norm_num [find_common_patterns, hw, hl, List.replicate, alistUpd,
    sortByCountDesc, insertByCountDesc, List.filter_cons, List.foldl_cons, List.foldl_nil]

theorem find_common_patterns_urgent :
    find_common_patterns (List.replicate 5 "URGENT") = ["URGENT"] := by
  have hw : findWords (upper "URGENT") = ["URGENT"] := by decide
  have hl : ("URGENT" : String).length = 6 := by decide
  norm_num [find_common_patterns, hw, hl, List.replicate, alistUpd,
    sortByCountDesc, insertByCountDesc, List.filter_cons, List.foldl_cons, List.foldl_nil]

/-- C8 counterexample: after 1005 `record_correction` calls the in-memory
log holds all 1005 entries, and `suggest_pattern_improvements` — the reader
of the correction log — behaves differently on the full log than on its
1000 most recent entries: the five old email → letter corrections push the
(email, letter) group to the `min_corrections` threshold, so the full log
reaches the pattern-construction line (and its `NameError`), while the
trimmed log returns an empty suggestion dict.  A reader therefore observes
entries beyond the 1000 most recent, refuting the claim. -/
theorem C8_counterexample :
    c8_state.corrections.length = 1005
    ∧ suggest_pattern_improvements c8_state 5
        = Except.error "NameError: name re is not defined"
    ∧ suggest_pattern_improvements c8_trimmed 5 = Except.ok [] := by
  refine ⟨by rw [c8_state_corrections]; simp, ?_, ?_⟩
  · unfold suggest_pattern_improvements
    rw [c8_groups]
    exact suggest_loop_cons_error 5 (by simp)
      (by rw [find_common_patterns_zzz]; rfl)
  · unfold suggest_pattern_improvements
    rw [c8_groups_trimmed,
      suggest_loop_cons_skip 5 (by simp) (find_common_patterns_blank 1000)]
    rfl

/-- C8 as amended: only the persisted snapshot is capped — what
`_save_feedback` writes is exactly the suffix of the in-memory log of
length `min (length) 1000`, i.e. the most recent at most 1000 entries; the
in-memory log itself (which in-process readers such as
`suggest_pattern_improvements` observe) grows without bound. -/
theorem C8_amended_persistence (st : FeedbackState) :
    List.IsSuffix (save_feedback_corrections st) st.corrections
    ∧ (save_feedback_corrections st).length = min st.corrections.length 1000 := by
  constructor
  · exact List.drop_suffix _ _
  · show (st.corrections.drop (st.corrections.length - 1000)).length = _
    rw [List.length_drop]
    omega

/-- C9: on the scenario-D store (5 corrections email → change_order, every
sample the token URGENT) the source's `suggest_pattern_improvements` raises
`NameError` — `feedback.py` imports `re` only inside
`_find_common_patterns`, so `re.escape` is unbound at the pattern
construction line — where the spec (and the function docstring) promise the
word-boundary pattern `URGENT` for change_order, as the spec-modelled
variant returns. -/
theorem C9_suggest_pattern_improvements :
    suggest_pattern_improvements c9_state 5
        = Except.error "NameError: name re is not defined"
    ∧ suggest_pattern_improvements_intended c9_state 5
        = [("change_order", ["\\bURGENT\\b"])] := by
  have hc : c9_state.corrections = List.replicate 5
      { timestamp := "2025-01-01", original_type := "email",
        corrected_type := "change_order", confidence := 9/10,
        text_sample := "URGENT" } := by
    unfold c9_state
    rw [foldl_record_corrections]
    simp [List.map_replicate, show takeChars 200 "URGENT" = "URGENT" from by decide]
  have hg : correction_groups c9_state
      = [(("email", "change_order"), List.replicate 5 "URGENT")] := by
    unfold correction_groups
    rw [hc, show List.replicate 5
        ({ timestamp := "2025-01-01", original_type := "email",
           corrected_type := "change_order", confidence := 9/10,
           text_sample := "URGENT" } : CorrectionEntry)
      = List.replicate (4 + 1)
        ({ timestamp := "2025-01-01", original_type := "email",
           corrected_type := "change_order", confidence := 9/10,
           text_sample := "URGENT" } : CorrectionEntry) from rfl,
      foldl_group_step_replicate]
    simp [alistUpd]
  have hre : "\\b" ++ re_escape "URGENT" ++ "\\b" = "\\bURGENT\\b" := by decide
  constructor
  · unfold suggest_pattern_improvements
    rw [hg]
    exact suggest_loop_cons_error 5 (by simp)
      (by rw [find_common_patterns_urgent]; rfl)
  · unfold suggest_pattern_improvements_intended
    rw [hg]
    unfold suggest_loop_intended
    rw [if_pos (by simp)]
    dsimp only
    rw [find_common_patterns_urgent, if_neg (by simp)]
    unfold suggest_loop_intended
    simp [alistUpd, hre]

end SmartSplitter
